import Mathlib

/-!
# Verification of the PortfolioProjection quote resolver and view model

Shallow embedding of `src/App.jsx` from the portfolio-projection
repository.  JavaScript numbers are modelled by `JSNum`: `NaN`, signed
infinities, and finite values represented as exact rationals (the claims
under verification never depend on IEEE-754 rounding, only on control
flow, `NaN` propagation and exact arithmetic on user-entered decimal
values).  JSON field values are modelled by `JField`, distinguishing
the nullish case (absent key, `null` or `undefined`), a present
non-number value, and a present number.  Network outcomes are modelled
by `FetchOutcome`: a thrown fetch/parse error, a non-ok HTTP status, or
an ok response carrying a payload.  String primitives used by the code
(`trim`, `split`, `toLowerCase`, `parseFloat`) are modelled over
`List Char` for the ASCII code points that tickers and CSV quotes use.
-/

namespace PortfolioProjection

/-- A JavaScript number: `NaN`, `±Infinity`, or a finite value (exact ℚ). -/
inductive JSNum where
  | nan : JSNum
  | inf (pos : Bool) : JSNum
  | num (q : ℚ) : JSNum
deriving DecidableEq

/-- A JSON field value as seen by the resolver: nullish (missing key,
`null` or `undefined`), present but not a number, or a number. -/
inductive JField where
  | absent : JField
  | notNum : JField
  | jnum (n : JSNum) : JField
deriving DecidableEq

/-- JavaScript `a ?? b` (nullish coalescing) on field values. -/
def JField.coalesce : JField → JField → JField
  | JField.absent, b => b
  | a, _ => a

/-- The check `typeof price === 'number' && !isNaN(price)` applied to the
value of `x ?? y ?? null`: yields the price when it is a non-NaN number. -/
def JField.validPrice : JField → Option JSNum
  | JField.jnum (JSNum.num q) => some (JSNum.num q)
  | JField.jnum (JSNum.inf b) => some (JSNum.inf b)
  | _ => none

/-- JavaScript truthiness on numbers: `NaN` and `0` (and `-0`) are falsy. -/
def jsFalsy : JSNum → Bool
  | JSNum.nan => true
  | JSNum.num q => q = 0
  | JSNum.inf _ => false

/-- JavaScript `x || 0` for a number `x`. -/
def jsOrZero (x : JSNum) : JSNum := if jsFalsy x then JSNum.num 0 else x

/-- JavaScript `x || 0` for a nullable number (`null` is falsy). -/
def optOrZero : Option JSNum → JSNum
  | none => JSNum.num 0
  | some x => jsOrZero x

/-- JavaScript `+` on numbers. -/
def jsAdd : JSNum → JSNum → JSNum
  | JSNum.nan, _ => JSNum.nan
  | _, JSNum.nan => JSNum.nan
  | JSNum.inf a, JSNum.inf b => if a = b then JSNum.inf a else JSNum.nan
  | JSNum.inf a, JSNum.num _ => JSNum.inf a
  | JSNum.num _, JSNum.inf b => JSNum.inf b
  | JSNum.num p, JSNum.num q => JSNum.num (p + q)

/-- JavaScript unary minus on numbers. -/
def jsNeg : JSNum → JSNum
  | JSNum.nan => JSNum.nan
  | JSNum.inf a => JSNum.inf (!a)
  | JSNum.num q => JSNum.num (-q)

/-- JavaScript `-` on numbers. -/
def jsSub (x y : JSNum) : JSNum := jsAdd x (jsNeg y)

/-- JavaScript `*` on numbers. -/
def jsMul : JSNum → JSNum → JSNum
  | JSNum.nan, _ => JSNum.nan
  | _, JSNum.nan => JSNum.nan
  | JSNum.inf a, JSNum.inf b => JSNum.inf (a = b)
  | JSNum.inf a, JSNum.num q =>
      if q = 0 then JSNum.nan else JSNum.inf (a = decide (0 < q))
  | JSNum.num q, JSNum.inf a =>
      if q = 0 then JSNum.nan else JSNum.inf (a = decide (0 < q))
  | JSNum.num p, JSNum.num q => JSNum.num (p * q)

/-- JavaScript `/` on numbers (no `-0` in the model, so division by zero
takes the sign of the dividend). -/
def jsDiv : JSNum → JSNum → JSNum
  | JSNum.nan, _ => JSNum.nan
  | _, JSNum.nan => JSNum.nan
  | JSNum.inf _, JSNum.inf _ => JSNum.nan
  | JSNum.inf a, JSNum.num q => JSNum.inf (a = decide (0 ≤ q))
  | JSNum.num _, JSNum.inf _ => JSNum.num 0
  | JSNum.num p, JSNum.num q =>
      if q = 0 then (if p = 0 then JSNum.nan else JSNum.inf (decide (0 < p)))
      else JSNum.num (p / q)

/-- JavaScript `x > y` on numbers (`NaN` compares false). -/
def jsGt : JSNum → JSNum → Bool
  | JSNum.nan, _ => false
  | _, JSNum.nan => false
  | JSNum.inf a, JSNum.inf b => a && !b
  | JSNum.inf a, JSNum.num _ => a
  | JSNum.num _, JSNum.inf b => !b
  | JSNum.num p, JSNum.num q => q < p

/-! ## String primitives (ASCII model of the JS builtins used) -/

/-- ASCII decimal digit. -/
def isAsciiDigit (c : Char) : Bool := '0' ≤ c && c ≤ '9'

/-- ASCII letter, i.e. the character class `[a-z]` under the `i` flag. -/
def isAsciiAlpha (c : Char) : Bool :=
  ('a' ≤ c && c ≤ 'z') || ('A' ≤ c && c ≤ 'Z')

/-- The whitespace skipped by `parseFloat`/`trim` (ASCII subset). -/
def isJsSpace (c : Char) : Bool :=
  c = ' ' || c = '\t' || c = '\n' || c = '\r' || c = '\x0b' || c = '\x0c'

/-- `String.prototype.toLowerCase`, restricted to the ASCII letters
(tickers and Stooq symbols are ASCII; other code points are unchanged). -/
def jsLowerChar : Char → Char
  | 'A' => 'a' | 'B' => 'b' | 'C' => 'c' | 'D' => 'd' | 'E' => 'e'
  | 'F' => 'f' | 'G' => 'g' | 'H' => 'h' | 'I' => 'i' | 'J' => 'j'
  | 'K' => 'k' | 'L' => 'l' | 'M' => 'm' | 'N' => 'n' | 'O' => 'o'
  | 'P' => 'p' | 'Q' => 'q' | 'R' => 'r' | 'S' => 's' | 'T' => 't'
  | 'U' => 'u' | 'V' => 'v' | 'W' => 'w' | 'X' => 'x' | 'Y' => 'y'
  | 'Z' => 'z'
  | c => c

/-- Lower-case a character list. -/
def lowerChars (cs : List Char) : List Char := cs.map jsLowerChar

/-- `String.prototype.trim` (ASCII whitespace). -/
def jsTrim (cs : List Char) : List Char :=
  ((cs.dropWhile isJsSpace).reverse.dropWhile isJsSpace).reverse

/-- `String.prototype.split` with a single-character separator. -/
def splitOnChar (sep : Char) (cs : List Char) : List (List Char) :=
  cs.foldr
    (fun c acc =>
      match acc with
      | [] => [[c]]
      | h :: t => if c = sep then [] :: h :: t else (c :: h) :: t)
    [[]]

/-- Collapse each `"\r\n"` to `"\n"`; splitting the result on `'\n'` is
`split(/\r?\n/)` (a lone `'\r'` is not a separator for that pattern). -/
def collapseCRLF : List Char → List Char
  | '\r' :: '\n' :: rest => '\n' :: collapseCRLF rest
  | c :: rest => c :: collapseCRLF rest
  | [] => []

/-- Numeric value of a digit run. -/
def digitsToNat (ds : List Char) : ℕ :=
  ds.foldl (fun acc c => acc * 10 + (c.toNat - '0'.toNat)) 0

/-- JavaScript `parseFloat`: skip leading whitespace, read an optional
sign, then either `Infinity` or a decimal literal (digits, optional
fraction, optional exponent), taking the longest valid prefix and
returning `NaN` when no digits were read. -/
def parseFloatChars (cs0 : List Char) : JSNum :=
  let cs1 := cs0.dropWhile isJsSpace
  let sgnNeg : Bool :=
    match cs1 with
    | '-' :: _ => true
    | _ => false
  let cs2 : List Char :=
    match cs1 with
    | '+' :: rest => rest
    | '-' :: rest => rest
    | rest => rest
  if ("Infinity".data).isPrefixOf cs2 then JSNum.inf (!sgnNeg)
  else
    let intDs := cs2.takeWhile isAsciiDigit
    let rest1 := cs2.dropWhile isAsciiDigit
    let fracDs : List Char :=
      match rest1 with
      | '.' :: r => r.takeWhile isAsciiDigit
      | _ => []
    let rest2 : List Char :=
      match rest1 with
      | '.' :: r => r.dropWhile isAsciiDigit
      | r => r
    if intDs = [] ∧ fracDs = [] then JSNum.nan
    else
      let eSgnMag : Bool × ℕ :=
        match rest2 with
        | e :: r =>
          if e = 'e' ∨ e = 'E' then
            let esgnNeg : Bool :=
              match r with
              | '-' :: _ => true
              | _ => false
            let r2 : List Char :=
              match r with
              | '+' :: rr => rr
              | '-' :: rr => rr
              | rr => rr
            let eds := r2.takeWhile isAsciiDigit
            if eds = [] then (false, 0) else (esgnNeg, digitsToNat eds)
          else (false, 0)
        | [] => (false, 0)
      -- value = sign * (intDs.fracDs) * 10^(±eMag), written as one exact
      -- integer fraction so that numerator and denominator compute.
      let mantNum : ℕ := digitsToNat intDs * 10 ^ fracDs.length + digitsToNat fracDs
      let numZ : ℤ := if sgnNeg then -(mantNum : ℤ) else (mantNum : ℤ)
      let numE : ℤ := if eSgnMag.1 then numZ else numZ * 10 ^ eSgnMag.2
      let denE : ℕ :=
        if eSgnMag.1 then 10 ^ fracDs.length * 10 ^ eSgnMag.2 else 10 ^ fracDs.length
      JSNum.num ((numE : ℚ) / (denE : ℚ))

/-- `parseFloat` on a string. -/
def jsParseFloat (s : String) : JSNum := parseFloatChars s.data

/-! ## The quote-resolution fallback chain (`fetchCurrentPrice`) -/

/-- Payload of the Yahoo v7 quote endpoint, reduced to the two fields the
code reads from `quoteData?.quoteResponse?.result?.[0] ?? {}` (a nullish
path yields `{}`, i.e. both fields absent). -/
structure QuotePayload where
  regularMarketPrice : JField
  regularMarketPreviousClose : JField
deriving DecidableEq

/-- Payload of the Yahoo v8 chart endpoint, reduced to the two fields the
code reads from `chartData?.chart?.result?.[0]?.meta ?? {}`. -/
structure ChartPayload where
  regularMarketPrice : JField
  chartPreviousClose : JField
deriving DecidableEq

/-- Outcome of one proxied request: the fetch (or body parse) threw, the
response had a non-ok status, or an ok response with a payload. -/
inductive FetchOutcome (α : Type) where
  | networkError : FetchOutcome α
  | httpError : FetchOutcome α
  | ok (payload : α) : FetchOutcome α
deriving DecidableEq

/-- The network environment for one `fetchCurrentPrice` call: what each of
the three sources would answer if queried. -/
structure Env where
  quoteV7 : FetchOutcome QuotePayload
  chartV8 : FetchOutcome ChartPayload
  stooqCsv : FetchOutcome String
deriving DecidableEq

/-- The three data sources, in chain order. -/
inductive Source where
  | quoteV7 : Source
  | chartV8 : Source
  | stooq : Source
deriving DecidableEq

/-- Step 1 of the chain: the v7 quote endpoint.  Returns the price when the
response is ok and `result.regularMarketPrice ?? result.regularMarketPreviousClose`
is a non-NaN number. -/
def tryQuoteV7 : FetchOutcome QuotePayload → Option JSNum
  | FetchOutcome.ok p =>
      JField.validPrice (JField.coalesce p.regularMarketPrice p.regularMarketPreviousClose)
  | _ => none

/-- Step 2 of the chain: the v8 chart endpoint, reading
`meta.regularMarketPrice ?? meta.chartPreviousClose`. -/
def tryChartV8 : FetchOutcome ChartPayload → Option JSNum
  | FetchOutcome.ok p =>
      JField.validPrice (JField.coalesce p.regularMarketPrice p.chartPreviousClose)
  | _ => none

/-- Stooq symbol transform: lower-case the ticker; `/^[a-z]+$/i` appends
`.us`; otherwise a `-usd` suffix is replaced by `.v`; otherwise the
lower-cased ticker passes through unchanged. -/
def stooqSymbol (ticker : String) : String :=
  let s := lowerChars ticker.data
  if s ≠ [] ∧ s.all isAsciiAlpha then String.mk (s ++ ".us".data)
  else if ("-usd".data).isSuffixOf s then
    String.mk (s.take (s.length - 4) ++ ".v".data)
  else String.mk s

/-- The close field parsed from a Stooq CSV body: trim, split on
`/\r?\n/`, take the second line, split on `','`, `parseFloat` the seventh
field.  A missing second line or a missing seventh field gives `NaN`
(`parseFloat(undefined)` is `NaN`); the code returns no price in exactly
those cases. -/
def stooqParsedClose (csv : String) : JSNum :=
  let lines := splitOnChar '\n' (collapseCRLF (jsTrim csv.data))
  match lines.get? 1 with
  | some line2 =>
      (match (splitOnChar ',' line2).get? 6 with
       | some f => parseFloatChars f
       | none => JSNum.nan)
  | none => JSNum.nan

/-- Step 3 of the chain: the Stooq CSV service.  Returns the parsed close
when it is not `NaN`. -/
def tryStooq : FetchOutcome String → Option JSNum
  | FetchOutcome.ok csv =>
      (match stooqParsedClose csv with
       | JSNum.nan => none
       | c => some c)
  | _ => none

/-- `fetchCurrentPrice(ticker)`: empty ticker short-circuits to `null`;
otherwise the three sources are attempted strictly in order, stopping at
the first success, and `null` is returned if all fail.  The second
component records the requests issued, as (source, symbol sent) pairs. -/
def fetchCurrentPrice (ticker : String) (env : Env) :
    Option JSNum × List (Source × String) :=
  if ticker = "" then (none, [])
  else
    match tryQuoteV7 env.quoteV7 with
    | some p => (some p, [(Source.quoteV7, ticker)])
    | none =>
      match tryChartV8 env.chartV8 with
      | some p => (some p, [(Source.quoteV7, ticker), (Source.chartV8, ticker)])
      | none =>
        match tryStooq env.stooqCsv with
        | some p =>
            (some p,
             [(Source.quoteV7, ticker), (Source.chartV8, ticker),
              (Source.stooq, stooqSymbol ticker)])
        | none =>
            (none,
             [(Source.quoteV7, ticker), (Source.chartV8, ticker),
              (Source.stooq, stooqSymbol ticker)])

/-! ## The portfolio view model -/

/-- One asset row of the `assets` state. -/
structure Asset where
  id : ℕ
  ticker : String
  shares : JSNum
  currentPrice : Option JSNum
  targetPrice : JSNum
  loading : Bool
  error : Option String
deriving DecidableEq

/-- A freshly created (or reset) blank row. -/
def blankAsset (i : ℕ) : Asset :=
  { id := i, ticker := "", shares := JSNum.num 0, currentPrice := none,
    targetPrice := JSNum.num 0, loading := false, error := none }

/-- `updateTicker(id, ticker)`: set the ticker and reset any previously
fetched price, loading flag and error on the matching row. -/
def updateTickerFn (i : ℕ) (t : String) (l : List Asset) : List Asset :=
  l.map fun a =>
    if a.id = i then
      { a with ticker := t, currentPrice := none, loading := false, error := none }
    else a

/-- `isNaN(parseFloat(v)) ? 0 : parseFloat(v)`. -/
def jsParsedOrZero (v : String) : JSNum :=
  match jsParseFloat v with
  | JSNum.nan => JSNum.num 0
  | n => n

/-- `updateShares(id, shares)`. -/
def updateSharesFn (i : ℕ) (v : String) (l : List Asset) : List Asset :=
  l.map fun a => if a.id = i then { a with shares := jsParsedOrZero v } else a

/-- `updateTarget(id, price)`. -/
def updateTargetFn (i : ℕ) (v : String) (l : List Asset) : List Asset :=
  l.map fun a => if a.id = i then { a with targetPrice := jsParsedOrZero v } else a

/-- `addRow()`: append a blank row with a fresh id. -/
def addRowFn (nid : ℕ) (l : List Asset) : List Asset := l ++ [blankAsset nid]

/-- `removeRow(id)`: with exactly one row left, reset it to a blank row
keeping its id; otherwise drop the rows whose id matches. -/
def removeRowFn (i : ℕ) (l : List Asset) : List Asset :=
  match l with
  | [a] => [blankAsset a.id]
  | l => l.filter fun a => a.id != i

/-- One element of the `results` array built inside `fetchAllPrices`. -/
structure FetchResult where
  id : ℕ
  price : Option JSNum
  error : Option String
deriving DecidableEq

/-- The per-row result: rows without a ticker get `{price: null, error:
null}`; otherwise the resolver runs and a `null` price carries the error
message `"Price unavailable"`. -/
def mkResult (resolver : String → Option JSNum) (a : Asset) : FetchResult :=
  if a.ticker = "" then { id := a.id, price := none, error := none }
  else
    let p := resolver a.ticker
    { id := a.id, price := p,
      error := match p with
               | none => some "Price unavailable"
               | some _ => none }

/-- First `setAssets` of `fetchAllPrices`, applied to one row: a row with
a ticker is marked loading, clearing its error and price. -/
def markOne (a : Asset) : Asset :=
  if a.ticker = "" then a
  else { a with loading := true, error := none, currentPrice := none }

/-- First `setAssets` of `fetchAllPrices`: mark every row with a ticker as
loading, clearing its error and price. -/
def markLoading (l : List Asset) : List Asset :=
  l.map markOne

/-- Second `setAssets` of `fetchAllPrices`, applied to one row: rows with
no matching result or no ticker only drop the loading flag; otherwise the
fetched price and error are written. -/
def applyOne (results : List FetchResult) (a : Asset) : Asset :=
  match results.find? (fun r => r.id == a.id) with
  | none => { a with loading := false }
  | some r =>
      if a.ticker = "" then { a with loading := false }
      else { a with currentPrice := r.price, loading := false, error := r.error }

/-- Second `setAssets` of `fetchAllPrices` over the whole list. -/
def applyResults (results : List FetchResult) (l : List Asset) : List Asset :=
  l.map (applyOne results)

/-- One full `fetchAllPrices` round on snapshot `l`, with no interleaved
edits: mark loading, resolve every row concurrently, apply the results. -/
def fetchRound (resolver : String → Option JSNum) (l : List Asset) : List Asset :=
  applyResults (l.map (mkResult resolver)) (markLoading l)

/-! ## Derived metrics -/

/-- The derived per-row fields computed in the `rows` mapping. -/
structure RowMetrics where
  currentValue : JSNum
  targetValue : JSNum
  gain : JSNum
  returnPct : Option JSNum
deriving DecidableEq

/-- Per-row derived metrics:
`current = (shares || 0) * (currentPrice || 0)`,
`target = (shares || 0) * (targetPrice || 0)`, `gain = target - current`,
`returnPct = current > 0 ? (gain / current) * 100 : null`. -/
def rowMetrics (a : Asset) : RowMetrics :=
  let current := jsMul (jsOrZero a.shares) (optOrZero a.currentPrice)
  let target := jsMul (jsOrZero a.shares) (jsOrZero a.targetPrice)
  let gain := jsSub target current
  { currentValue := current, targetValue := target, gain := gain,
    returnPct :=
      if jsGt current (JSNum.num 0) then some (jsMul (jsDiv gain current) (JSNum.num 100))
      else none }

/-- `rows.reduce((acc, r) => acc + r.currentValue, 0)`. -/
def currentTotal (l : List Asset) : JSNum :=
  l.foldl (fun acc a => jsAdd acc (rowMetrics a).currentValue) (JSNum.num 0)

/-- `rows.reduce((acc, r) => acc + r.targetValue, 0)`. -/
def targetTotal (l : List Asset) : JSNum :=
  l.foldl (fun acc a => jsAdd acc (rowMetrics a).targetValue) (JSNum.num 0)

/-- `gainTotal = targetTotal - currentTotal`. -/
def gainTotal (l : List Asset) : JSNum := jsSub (targetTotal l) (currentTotal l)

/-- `portfolioReturnPct = currentTotal > 0 ?
((targetTotal - currentTotal) / currentTotal) * 100 : null`. -/
def portfolioReturnPct (l : List Asset) : Option JSNum :=
  if jsGt (currentTotal l) (JSNum.num 0) then
    some (jsMul (jsDiv (jsSub (targetTotal l) (currentTotal l)) (currentTotal l))
                (JSNum.num 100))
  else none

/-! ## The application state machine

`AppState` holds the row list, the rounds of `fetchAllPrices` results that
have been computed but not yet applied (in flight), and a counter
standing in for `genId` (which returns fresh identifiers).  `Step` is one
serialized state update; `completeFetch` may land at any later point,
which models a round finishing while other edits happened in between.
The `g` flag restricts `editTicker` to quiescent moments (no round in
flight) when `true`; `g = false` allows every interleaving. -/

structure AppState where
  assets : List Asset
  pending : List (List FetchResult)
  nextId : ℕ
deriving DecidableEq

/-- The initial state: a single blank row. -/
def initState : AppState := { assets := [blankAsset 0], pending := [], nextId := 1 }

/-- One serialized state transition of the app. -/
inductive Step (resolver : String → Option JSNum) (g : Bool) : AppState → AppState → Prop where
  | editTicker (s : AppState) (i : ℕ) (t : String)
      (hg : g = true → s.pending = []) :
      Step resolver g s { s with assets := updateTickerFn i t s.assets }
  | editShares (s : AppState) (i : ℕ) (v : String) :
      Step resolver g s { s with assets := updateSharesFn i v s.assets }
  | editTarget (s : AppState) (i : ℕ) (v : String) :
      Step resolver g s { s with assets := updateTargetFn i v s.assets }
  | addRow (s : AppState) :
      Step resolver g s
        { assets := addRowFn s.nextId s.assets, pending := s.pending,
          nextId := s.nextId + 1 }
  | removeRow (s : AppState) (i : ℕ) :
      Step resolver g s { s with assets := removeRowFn i s.assets }
  | startFetch (s : AppState) :
      Step resolver g s
        { assets := markLoading s.assets,
          pending := s.pending ++ [s.assets.map (mkResult resolver)],
          nextId := s.nextId }
  | completeFetch (s : AppState) (k : ℕ) (round : List FetchResult)
      (hk : s.pending.get? k = some round) :
      Step resolver g s
        { assets := applyResults round s.assets,
          pending := s.pending.eraseIdx k, nextId := s.nextId }

/-- States reachable from the initial state. -/
def Reachable (resolver : String → Option JSNum) (g : Bool) (s : AppState) : Prop :=
  Relation.ReflTransGen (Step resolver g) initState s

/-! ## Failure predicates for the three sources

Each enumerates the claim's failure shapes for one source: the fetch (or
body parse) threw, a non-ok status, or an ok payload whose extracted
price is missing (nullish), malformed (not a number) or `NaN`. -/

/-- The primary (v7 quote) source failed. -/
def QuoteFailed (o : FetchOutcome QuotePayload) : Prop :=
  o = FetchOutcome.networkError ∨ o = FetchOutcome.httpError ∨
    ∃ pl, o = FetchOutcome.ok pl ∧
      (JField.coalesce pl.regularMarketPrice pl.regularMarketPreviousClose = JField.absent ∨
       JField.coalesce pl.regularMarketPrice pl.regularMarketPreviousClose = JField.notNum ∨
       JField.coalesce pl.regularMarketPrice pl.regularMarketPreviousClose = JField.jnum JSNum.nan)

/-- The secondary (v8 chart) source failed. -/
def ChartFailed (o : FetchOutcome ChartPayload) : Prop :=
  o = FetchOutcome.networkError ∨ o = FetchOutcome.httpError ∨
    ∃ pl, o = FetchOutcome.ok pl ∧
      (JField.coalesce pl.regularMarketPrice pl.chartPreviousClose = JField.absent ∨
       JField.coalesce pl.regularMarketPrice pl.chartPreviousClose = JField.notNum ∨
       JField.coalesce pl.regularMarketPrice pl.chartPreviousClose = JField.jnum JSNum.nan)

/-- The tertiary (Stooq CSV) source failed: no usable close field. -/
def StooqFailed (o : FetchOutcome String) : Prop :=
  o = FetchOutcome.networkError ∨ o = FetchOutcome.httpError ∨
    ∃ csv, o = FetchOutcome.ok csv ∧ stooqParsedClose csv = JSNum.nan

/-- The Stooq symbol transform as the claim words it: lower-case the
ticker; if the ticker is purely alphabetic append `.us`; else if it ends
with `-usd` (after lower-casing) replace that four-character suffix with
`.v`; otherwise pass it through unchanged, lower-cased. -/
def stooqSymbolSpec (ticker : String) : String :=
  let low := lowerChars ticker.data
  if ticker.data ≠ [] ∧ ticker.data.all isAsciiAlpha then String.mk low ++ ".us"
  else if low.drop (low.length - 4) = "-usd".data then
    String.mk (low.take (low.length - 4)) ++ ".v"
  else String.mk low

/-! ## Invariants of the state machine -/

/-- Structural invariant, independent of the edit/fetch interleaving:
the row list is never empty, ids are bounded by the fresh-id counter and
pairwise distinct, a row without a ticker displays no price, and pending
results only carry already-issued ids. -/
def StructInv (s : AppState) : Prop :=
  s.assets ≠ [] ∧
  (∀ a ∈ s.assets, a.id < s.nextId) ∧
  (s.assets.map Asset.id).Nodup ∧
  (∀ a ∈ s.assets, a.ticker = "" → a.currentPrice = none) ∧
  (∀ round ∈ s.pending, ∀ r ∈ round, r.id < s.nextId)

/-- Every displayed price is the resolver's price for the row's current
ticker. -/
def PriceConsistent (resolver : String → Option JSNum) (s : AppState) : Prop :=
  ∀ a ∈ s.assets, ∀ p, a.currentPrice = some p → resolver a.ticker = some p

/-- Every in-flight result that will be written to a row carries the
resolver's price for that row's current ticker. -/
def PendingConsistent (resolver : String → Option JSNum) (s : AppState) : Prop :=
  ∀ round ∈ s.pending, ∀ r ∈ round, ∀ a ∈ s.assets,
    a.id = r.id → a.ticker ≠ "" → ∀ p, r.price = some p → resolver a.ticker = some p

/-! ## Concrete instances used by the example/witness theorems -/

/-- The two rows of the spec's aggregate example. -/
def exampleRows : List Asset :=
  [ { id := 1, ticker := "AAA", shares := JSNum.num 10,
      currentPrice := some (JSNum.num 100), targetPrice := JSNum.num 120,
      loading := false, error := none },
    { id := 2, ticker := "BBB", shares := JSNum.num 5,
      currentPrice := some (JSNum.num 50), targetPrice := JSNum.num 40,
      loading := false, error := none } ]

/-- An environment whose primary source answers a valid price of 123. -/
def envPrimary : Env :=
  { quoteV7 := FetchOutcome.ok
      { regularMarketPrice := JField.jnum (JSNum.num 123),
        regularMarketPreviousClose := JField.absent },
    chartV8 := FetchOutcome.networkError,
    stooqCsv := FetchOutcome.networkError }

/-- An environment whose primary source answers a price of exactly 0. -/
def envZeroPrimary : Env :=
  { envPrimary with
    quoteV7 := FetchOutcome.ok
      { regularMarketPrice := JField.jnum (JSNum.num 0),
        regularMarketPreviousClose := JField.absent } }

/-- An environment where the primary returns a malformed payload and the
secondary answers a price of exactly 0. -/
def envZeroChart : Env :=
  { quoteV7 := FetchOutcome.ok
      { regularMarketPrice := JField.notNum,
        regularMarketPreviousClose := JField.absent },
    chartV8 := FetchOutcome.ok
      { regularMarketPrice := JField.absent,
        chartPreviousClose := JField.jnum (JSNum.num 0) },
    stooqCsv := FetchOutcome.networkError }

/-- An environment where both Yahoo sources fail and Stooq's CSV close
field is `0.00`. -/
def envZeroStooq : Env :=
  { quoteV7 := FetchOutcome.networkError,
    chartV8 := FetchOutcome.httpError,
    stooqCsv := FetchOutcome.ok
      "Symbol,Date,Time,Open,High,Low,Close,Volume,Name\naaa.us,2024-01-02,10:00:00,1,2,0,0.00,100,AAA Corp" }

/-- An environment where all three sources fail. -/
def envAllFail : Env :=
  { quoteV7 := FetchOutcome.httpError,
    chartV8 := FetchOutcome.ok
      { regularMarketPrice := JField.jnum JSNum.nan, chartPreviousClose := JField.absent },
    stooqCsv := FetchOutcome.ok "No data" }

/-- A resolver that knows two tickers, used to exhibit the stale-price
interleaving. -/
def resolver0 : String → Option JSNum := fun t =>
  if t = "AAPL" then some (JSNum.num 100)
  else if t = "MSFT" then some (JSNum.num 50)
  else none

/-- Trace state: the ticker of the only row was set to `"AAPL"`. -/
def cexS1 : AppState := { initState with assets := updateTickerFn 0 "AAPL" initState.assets }

/-- Trace state: a fetch round started from `cexS1`. -/
def cexS2 : AppState :=
  { assets := markLoading cexS1.assets,
    pending := cexS1.pending ++ [cexS1.assets.map (mkResult resolver0)],
    nextId := cexS1.nextId }

/-- Trace state: while the round is in flight, the ticker was edited to
`"MSFT"`. -/
def cexS3 : AppState := { cexS2 with assets := updateTickerFn 0 "MSFT" cexS2.assets }

/-- Trace state: the in-flight round completed after the edit. -/
def cexS4 : AppState :=
  { assets := applyResults (cexS1.assets.map (mkResult resolver0)) cexS3.assets,
    pending := cexS3.pending.eraseIdx 0, nextId := cexS3.nextId }

/-- Guarded trace state: ticker set to `"AAPL"` (no round in flight). -/
def witS1 : AppState := { initState with assets := updateTickerFn 0 "AAPL" initState.assets }

/-- Guarded trace state: a fetch round started from `witS1`. -/
def witS2 : AppState :=
  { assets := markLoading witS1.assets,
    pending := witS1.pending ++ [witS1.assets.map (mkResult resolver0)],
    nextId := witS1.nextId }

/-- Guarded trace state: the round completed with no interleaved edit. -/
def witS3 : AppState :=
  { assets := applyResults (witS1.assets.map (mkResult resolver0)) witS2.assets,
    pending := witS2.pending.eraseIdx 0, nextId := witS2.nextId }

/-! ## Helper lemmas -/

theorem tryQuoteV7_eq_none (o : FetchOutcome QuotePayload) (h : QuoteFailed o) :
    tryQuoteV7 o = none := by
  rcases h with h | h | ⟨pl, h, hc⟩
  · rw [h]; rfl
  · rw [h]; rfl
  · rw [h]
    show JField.validPrice _ = none
    rcases hc with hc | hc | hc <;> rw [hc] <;> rfl

theorem tryChartV8_eq_none (o : FetchOutcome ChartPayload) (h : ChartFailed o) :
    tryChartV8 o = none := by
  rcases h with h | h | ⟨pl, h, hc⟩
  · rw [h]; rfl
  · rw [h]; rfl
  · rw [h]
    show JField.validPrice _ = none
    rcases hc with hc | hc | hc <;> rw [hc] <;> rfl

theorem tryStooq_eq_none (o : FetchOutcome String) (h : StooqFailed o) :
    tryStooq o = none := by
  rcases h with h | h | ⟨csv, h, hc⟩
  · rw [h]; rfl
  · rw [h]; rfl
  · rw [h]
    show (match stooqParsedClose csv with
          | JSNum.nan => none
          | c => some c) = none
    rw [hc]

theorem mkResult_id (resolver : String → Option JSNum) (a : Asset) :
    (mkResult resolver a).id = a.id := by
  unfold mkResult
  split <;> rfl

theorem markOne_id (a : Asset) : (markOne a).id = a.id := by
  unfold markOne
  split <;> rfl

theorem markOne_ticker (a : Asset) : (markOne a).ticker = a.ticker := by
  unfold markOne
  split <;> rfl

theorem find?_map_mkResult (resolver : String → Option JSNum) :
    ∀ (l : List Asset) (j : ℕ) (hj : j < l.length),
      (l.map Asset.id).Nodup →
      (l.map (mkResult resolver)).find? (fun r => r.id == (l.get ⟨j, hj⟩).id) =
        some (mkResult resolver (l.get ⟨j, hj⟩))
  | [], j, hj, _ => absurd hj (Nat.not_lt_zero j)
  | a :: tl, 0, _, _ => by
      simp only [List.map_cons, List.get]
      exact List.find?_cons_of_pos _ (by simp [mkResult_id])
  | a :: tl, j + 1, hj, hnd => by
      have hj' : j < tl.length := Nat.lt_of_succ_lt_succ hj
      have hnd' := List.nodup_cons.mp (by simpa using hnd :
        (a.id :: tl.map Asset.id).Nodup)
      have hmemid : tl[j].id ∈ tl.map Asset.id :=
        List.mem_map_of_mem Asset.id (tl.getElem_mem hj')
      have hne : a.id ≠ tl[j].id := fun he => hnd'.1 (he ▸ hmemid)
      simp only [List.map_cons, List.get]
      rw [List.find?_cons_of_neg _ (by simp only [mkResult_id, beq_iff_eq]; simpa using hne)]
      simpa using find?_map_mkResult resolver tl j hj' hnd'.2

theorem applyOne_found (rs : List FetchResult) (a : Asset) (r : FetchResult)
    (hf : rs.find? (fun x => x.id == a.id) = some r) (ht : a.ticker ≠ "") :
    applyOne rs a = { a with currentPrice := r.price, loading := false, error := r.error } := by
  unfold applyOne
  rw [hf]
  dsimp only
  rw [if_neg ht]

theorem mkResult_of_ticker (resolver : String → Option JSNum) (a : Asset)
    (ht : a.ticker ≠ "") :
    mkResult resolver a =
      { id := a.id, price := resolver a.ticker,
        error := match resolver a.ticker with
                 | none => some "Price unavailable"
                 | some _ => none } := by
  unfold mkResult
  rw [if_neg ht]

theorem fetchRound_get? (resolver : String → Option JSNum) (l : List Asset)
    (j : ℕ) (hj : j < l.length) :
    (fetchRound resolver l).get? j =
      some (applyOne (l.map (mkResult resolver)) (markOne (l.get ⟨j, hj⟩))) := by
  unfold fetchRound applyResults markLoading
  rw [List.map_map, List.get?_map, List.get?_eq_get hj]
  rfl

/-! ## Claim C1 -/

/-- C1: for a non-empty ticker, if the primary (Yahoo v7 quote) source
responds ok with a numeric, non-NaN `regularMarketPrice` — or, that field
being absent, a numeric non-NaN `regularMarketPreviousClose` — then
`fetchCurrentPrice` returns exactly that number and issues no request to
the secondary (chart) or tertiary (CSV) source. -/
theorem c1_primary_short_circuit
    (ticker : String) (env : Env) (pl : QuotePayload) (q : ℚ)
    (ht : ticker ≠ "")
    (henv : env.quoteV7 = FetchOutcome.ok pl)
    (hp : pl.regularMarketPrice = JField.jnum (JSNum.num q) ∨
          (pl.regularMarketPrice = JField.absent ∧
           pl.regularMarketPreviousClose = JField.jnum (JSNum.num q))) :
    fetchCurrentPrice ticker env = (some (JSNum.num q), [(Source.quoteV7, ticker)]) := by
  have hq : tryQuoteV7 env.quoteV7 = some (JSNum.num q) := by
    rw [henv]
    show JField.validPrice _ = _
    rcases hp with h | ⟨h1, h2⟩
    · rw [h]; rfl
    · rw [h1, h2]; rfl
  unfold fetchCurrentPrice
  rw [if_neg ht, hq]

/-- Witness for C1 at a concrete environment. -/
theorem c1_primary_short_circuit_witness :
    fetchCurrentPrice "AAPL" envPrimary =
      (some (JSNum.num 123), [(Source.quoteV7, "AAPL")]) :=
  c1_primary_short_circuit "AAPL" envPrimary
    { regularMarketPrice := JField.jnum (JSNum.num 123),
      regularMarketPreviousClose := JField.absent }
    123 (by decide) rfl (Or.inl rfl)

/-! ## Claim C2 -/

/-- C2: whenever all three sources fail — by network error, non-ok
status, malformed payload, or missing/NaN price — `fetchCurrentPrice`
returns `null` (it is a total function, so no exception reaches the
caller); and one `fetchAllPrices` round maps a `null` resolver result to
the row error `"Price unavailable"` with no price, and a numeric result
to a set `currentPrice` with the error cleared. -/
theorem c2_all_sources_fail_null
    : (∀ (t : String) (env : Env), QuoteFailed env.quoteV7 → ChartFailed env.chartV8 →
         StooqFailed env.stooqCsv → (fetchCurrentPrice t env).1 = none) ∧
      (∀ (resolver : String → Option JSNum) (l : List Asset) (j : ℕ) (hj : j < l.length),
         (l.map Asset.id).Nodup → (l.get ⟨j, hj⟩).ticker ≠ "" →
         ((resolver (l.get ⟨j, hj⟩).ticker = none →
            (fetchRound resolver l).get? j =
              some { l.get ⟨j, hj⟩ with currentPrice := none, loading := false,
                                        error := some "Price unavailable" }) ∧
          (∀ q, resolver (l.get ⟨j, hj⟩).ticker = some q →
            (fetchRound resolver l).get? j =
              some { l.get ⟨j, hj⟩ with currentPrice := some q, loading := false,
                                        error := none }))) := by
  constructor
  · intro t env h1 h2 h3
    have e1 := tryQuoteV7_eq_none _ h1
    have e2 := tryChartV8_eq_none _ h2
    have e3 := tryStooq_eq_none _ h3
    unfold fetchCurrentPrice
    by_cases ht : t = ""
    · rw [if_pos ht]
    · rw [if_neg ht, e1, e2, e3]
  · intro resolver l j hj hnd ht
    have hfind : (l.map (mkResult resolver)).find?
        (fun r => r.id == (markOne (l.get ⟨j, hj⟩)).id) =
        some (mkResult resolver (l.get ⟨j, hj⟩)) := by
      simp only [markOne_id]
      exact find?_map_mkResult resolver l j hj hnd
    have htm : (markOne (l.get ⟨j, hj⟩)).ticker ≠ "" := by
      rw [markOne_ticker]; exact ht
    have happ := applyOne_found _ _ _ hfind htm
    have hmk := mkResult_of_ticker resolver (l.get ⟨j, hj⟩) ht
    constructor
    · intro hre
      rw [fetchRound_get? resolver l j hj, happ, hmk]
      simp only [hre, markOne, if_neg ht]
    · intro q hre
      rw [fetchRound_get? resolver l j hj, happ, hmk]
      simp only [hre, markOne, if_neg ht]

/-- Witness for C2 at concrete inputs: an environment where all three
sources fail yields `null`, and a one-row round with an unknown ticker
ends with the error message while a known ticker ends with its price. -/
theorem c2_all_sources_fail_null_witness :
    (fetchCurrentPrice "AAPL" envAllFail).1 = none ∧
    (fetchRound resolver0 [{ blankAsset 7 with ticker := "ZZZ" }]).get? 0 =
      some { blankAsset 7 with ticker := "ZZZ", currentPrice := none,
                               loading := false, error := some "Price unavailable" } ∧
    (fetchRound resolver0 [{ blankAsset 7 with ticker := "AAPL" }]).get? 0 =
      some { blankAsset 7 with ticker := "AAPL", currentPrice := some (JSNum.num 100),
                               loading := false, error := none } := by
  refine ⟨?_, ?_, ?_⟩
  · exact c2_all_sources_fail_null.1 "AAPL" envAllFail
      (Or.inr (Or.inl rfl))
      (Or.inr (Or.inr ⟨_, rfl, Or.inr (Or.inr rfl)⟩))
      (Or.inr (Or.inr ⟨_, rfl, by decide⟩))
  · exact (c2_all_sources_fail_null.2 resolver0
      [{ blankAsset 7 with ticker := "ZZZ" }] 0 (by decide) (by decide) (by decide)).1
      (by decide)
  · exact (c2_all_sources_fail_null.2 resolver0
      [{ blankAsset 7 with ticker := "AAPL" }] 0 (by decide) (by decide) (by decide)).2
      (JSNum.num 100) (by decide)

/-! ## Claim C3 -/

theorem isAsciiAlpha_jsLowerChar (c : Char) :
    isAsciiAlpha (jsLowerChar c) = isAsciiAlpha c := by
  unfold jsLowerChar
  split <;> rfl

theorem all_alpha_lowerChars (cs : List Char) :
    (lowerChars cs).all isAsciiAlpha = cs.all isAsciiAlpha := by
  unfold lowerChars
  rw [List.all_map]
  congr 1
  funext c
  exact isAsciiAlpha_jsLowerChar c

theorem stooq_request_symbol (t : String) (env : Env) (sym : String)
    (h : (Source.stooq, sym) ∈ (fetchCurrentPrice t env).2) :
    sym = stooqSymbol t := by
  unfold fetchCurrentPrice at h
  split at h
  · simp at h
  · split at h
    · simp at h
    · split at h
      · simp at h
      · split at h <;> simp at h <;> exact h

/-- C3: the symbol sent to the tertiary CSV (Stooq) source is the ticker
lower-cased, with `.us` appended when it is purely alphabetic, `-usd`
replaced by `.v` otherwise when that suffix is present, and passed
through unchanged otherwise; `stooqSymbolSpec` phrases the claim's rule
and agrees with the code's transform on every ticker, and the three
quoted examples evaluate as stated. -/
theorem c3_stooq_symbol_rule :
    (∀ t : String, stooqSymbol t = stooqSymbolSpec t) ∧
    (∀ (t : String) (env : Env) (sym : String),
       (Source.stooq, sym) ∈ (fetchCurrentPrice t env).2 → sym = stooqSymbol t) ∧
    stooqSymbol "AAPL" = "aapl.us" ∧ stooqSymbol "BTC-USD" = "btc.v" ∧
    stooqSymbol "XYZ123" = "xyz123" := by
  refine ⟨?_, stooq_request_symbol, by decide, by decide, by decide⟩
  intro t
  unfold stooqSymbol stooqSymbolSpec
  have h1 : (lowerChars t.data ≠ [] ∧ (lowerChars t.data).all isAsciiAlpha = true) ↔
      (t.data ≠ [] ∧ t.data.all isAsciiAlpha = true) := by
    rw [all_alpha_lowerChars]
    unfold lowerChars
    simp
  have h2 : (("-usd".data).isSuffixOf (lowerChars t.data) = true) ↔
      ((lowerChars t.data).drop ((lowerChars t.data).length - 4) = "-usd".data) := by
    rw [List.isSuffixOf_iff_suffix, List.suffix_iff_eq_drop]
    have h4 : ("-usd".data).length = 4 := rfl
    rw [h4]
    exact eq_comm
  exact if_congr h1 rfl (if_congr h2 rfl rfl)

/-- Witness for C3: the symbol actually sent on the Stooq request for
`"BTC-USD"` in a concrete environment is `"btc.v"`. -/
theorem c3_stooq_symbol_rule_witness : "btc.v" = stooqSymbol "BTC-USD" :=
  c3_stooq_symbol_rule.2.1 "BTC-USD" envZeroStooq "btc.v" (by decide)

/-! ## Claim C4 -/

/-- C4: a price of exactly 0 from any of the three sources is accepted as
a valid price: `fetchCurrentPrice` returns 0 and stops at that source
rather than falling through to the next one or to `null`. -/
theorem c4_zero_price_is_valid :
    (∀ (t : String) (env : Env) (pl : QuotePayload), t ≠ "" →
       env.quoteV7 = FetchOutcome.ok pl →
       JField.coalesce pl.regularMarketPrice pl.regularMarketPreviousClose =
         JField.jnum (JSNum.num 0) →
       fetchCurrentPrice t env = (some (JSNum.num 0), [(Source.quoteV7, t)])) ∧
    (∀ (t : String) (env : Env) (pl : ChartPayload), t ≠ "" →
       QuoteFailed env.quoteV7 →
       env.chartV8 = FetchOutcome.ok pl →
       JField.coalesce pl.regularMarketPrice pl.chartPreviousClose =
         JField.jnum (JSNum.num 0) →
       fetchCurrentPrice t env =
         (some (JSNum.num 0), [(Source.quoteV7, t), (Source.chartV8, t)])) ∧
    (∀ (t : String) (env : Env) (csv : String), t ≠ "" →
       QuoteFailed env.quoteV7 → ChartFailed env.chartV8 →
       env.stooqCsv = FetchOutcome.ok csv →
       stooqParsedClose csv = JSNum.num 0 →
       fetchCurrentPrice t env =
         (some (JSNum.num 0),
          [(Source.quoteV7, t), (Source.chartV8, t), (Source.stooq, stooqSymbol t)])) := by
  refine ⟨?_, ?_, ?_⟩
  · intro t env pl ht henv hc
    have hq : tryQuoteV7 env.quoteV7 = some (JSNum.num 0) := by
      rw [henv]
      show JField.validPrice _ = _
      rw [hc]; rfl
    unfold fetchCurrentPrice
    rw [if_neg ht, hq]
  · intro t env pl ht h1 henv hc
    have e1 := tryQuoteV7_eq_none _ h1
    have hq : tryChartV8 env.chartV8 = some (JSNum.num 0) := by
      rw [henv]
      show JField.validPrice _ = _
      rw [hc]; rfl
    unfold fetchCurrentPrice
    rw [if_neg ht, e1, hq]
  · intro t env csv ht h1 h2 henv hc
    have e1 := tryQuoteV7_eq_none _ h1
    have e2 := tryChartV8_eq_none _ h2
    have hs : tryStooq env.stooqCsv = some (JSNum.num 0) := by
      rw [henv]
      show (match stooqParsedClose csv with
            | JSNum.nan => none
            | c => some c) = _
      rw [hc]
    unfold fetchCurrentPrice
    rw [if_neg ht, e1, e2, hs]

/-- Witness for C4: three concrete environments in which the zero price
arrives from the primary, the secondary and the tertiary source. -/
theorem c4_zero_price_is_valid_witness :
    fetchCurrentPrice "AAA" envZeroPrimary =
      (some (JSNum.num 0), [(Source.quoteV7, "AAA")]) ∧
    fetchCurrentPrice "AAA" envZeroChart =
      (some (JSNum.num 0), [(Source.quoteV7, "AAA"), (Source.chartV8, "AAA")]) ∧
    fetchCurrentPrice "AAA" envZeroStooq =
      (some (JSNum.num 0),
       [(Source.quoteV7, "AAA"), (Source.chartV8, "AAA"), (Source.stooq, "aaa.us")]) := by
  refine ⟨?_, ?_, ?_⟩
  · exact c4_zero_price_is_valid.1 "AAA" envZeroPrimary _ (by decide) rfl rfl
  · exact c4_zero_price_is_valid.2.1 "AAA" envZeroChart _ (by decide)
      (Or.inr (Or.inr ⟨_, rfl, Or.inr (Or.inl rfl)⟩)) rfl rfl
  · have h0 : stooqParsedClose
        "Symbol,Date,Time,Open,High,Low,Close,Volume,Name\naaa.us,2024-01-02,10:00:00,1,2,0,0.00,100,AAA Corp" =
        JSNum.num (((0 : ℤ) : ℚ) / ((100 : ℕ) : ℚ)) := rfl
    have h1 : (((0 : ℤ) : ℚ) / ((100 : ℕ) : ℚ)) = 0 := by norm_num
    have h := c4_zero_price_is_valid.2.2 "AAA" envZeroStooq _ (by decide)
      (Or.inl rfl) (Or.inr (Or.inl rfl)) rfl (by rw [h0, h1])
    rw [h]
    decide

/-! ## Evaluation lemmas for the JS number operations -/

theorem jsOrZero_num (q : ℚ) : jsOrZero (JSNum.num q) = JSNum.num q := by
  by_cases h : q = 0 <;> simp [jsOrZero, jsFalsy, h]

theorem optOrZero_some (x : JSNum) : optOrZero (some x) = jsOrZero x := rfl

theorem jsMul_num (p q : ℚ) : jsMul (JSNum.num p) (JSNum.num q) = JSNum.num (p * q) := rfl

theorem jsAdd_num (p q : ℚ) : jsAdd (JSNum.num p) (JSNum.num q) = JSNum.num (p + q) := rfl

theorem jsSub_num (p q : ℚ) : jsSub (JSNum.num p) (JSNum.num q) = JSNum.num (p - q) := by
  show JSNum.num (p + -q) = JSNum.num (p - q)
  rw [← sub_eq_add_neg]

theorem jsGt_num (p q : ℚ) : jsGt (JSNum.num p) (JSNum.num q) = decide (q < p) := rfl

theorem jsDiv_num (p q : ℚ) (hq : q ≠ 0) :
    jsDiv (JSNum.num p) (JSNum.num q) = JSNum.num (p / q) := by
  show (if q = 0 then _ else _) = _
  rw [if_neg hq]

/-! ## Claim C8 -/

/-- C8: the derived metrics are `currentValue = shares * currentPrice`
(0 when the price is null), `targetValue = shares * targetPrice`,
`gain = targetValue - currentValue`, `returnPct = gain / currentValue *
100` exactly when `currentValue > 0` and undefined (`null`) otherwise;
and on the spec's two example rows the totals are 1250, 1400, 150 and a
portfolio return of 12% — computed from the totals, not as the average
of the per-row percentages (which would be 0%). -/
theorem c8_derived_metrics :
    (∀ (a : Asset) (s p t : ℚ),
       a.shares = JSNum.num s → a.targetPrice = JSNum.num t →
       ((a.currentPrice = some (JSNum.num p) →
          (rowMetrics a).currentValue = JSNum.num (s * p) ∧
          (rowMetrics a).targetValue = JSNum.num (s * t) ∧
          (rowMetrics a).gain = JSNum.num (s * t - s * p) ∧
          (0 < s * p →
             (rowMetrics a).returnPct =
               some (JSNum.num ((s * t - s * p) / (s * p) * 100))) ∧
          (¬ 0 < s * p → (rowMetrics a).returnPct = none)) ∧
        (a.currentPrice = none →
          (rowMetrics a).currentValue = JSNum.num 0 ∧
          (rowMetrics a).targetValue = JSNum.num (s * t)))) ∧
    (currentTotal exampleRows = JSNum.num 1250 ∧
     targetTotal exampleRows = JSNum.num 1400 ∧
     gainTotal exampleRows = JSNum.num 150 ∧
     portfolioReturnPct exampleRows = some (JSNum.num 12)) := by
  have hct : currentTotal exampleRows = JSNum.num (0 + 10 * 100 + 5 * 50) := rfl
  have htt : targetTotal exampleRows = JSNum.num (0 + 10 * 120 + 5 * 40) := rfl
  have hct' : currentTotal exampleRows = JSNum.num 1250 := by rw [hct]; norm_num
  have htt' : targetTotal exampleRows = JSNum.num 1400 := by rw [htt]; norm_num
  constructor
  · intro a s p t hs htg
    have hcv : (rowMetrics a).currentValue =
        jsMul (jsOrZero a.shares) (optOrZero a.currentPrice) := rfl
    have htv : (rowMetrics a).targetValue =
        jsMul (jsOrZero a.shares) (jsOrZero a.targetPrice) := rfl
    have hg : (rowMetrics a).gain =
        jsSub (rowMetrics a).targetValue (rowMetrics a).currentValue := rfl
    have hrp : (rowMetrics a).returnPct =
        (if jsGt (rowMetrics a).currentValue (JSNum.num 0) then
           some (jsMul (jsDiv (rowMetrics a).gain (rowMetrics a).currentValue)
                       (JSNum.num 100))
         else none) := rfl
    constructor
    · intro hcp
      have h1 : (rowMetrics a).currentValue = JSNum.num (s * p) := by
        rw [hcv, hs, hcp, jsOrZero_num, optOrZero_some, jsOrZero_num, jsMul_num]
      have h2 : (rowMetrics a).targetValue = JSNum.num (s * t) := by
        rw [htv, hs, htg, jsOrZero_num, jsOrZero_num, jsMul_num]
      have h3 : (rowMetrics a).gain = JSNum.num (s * t - s * p) := by
        rw [hg, h1, h2, jsSub_num]
      refine ⟨h1, h2, h3, ?_, ?_⟩
      · intro hpos
        rw [hrp, h1, h3, if_pos (by rw [jsGt_num]; simpa using hpos),
          jsDiv_num _ _ (ne_of_gt hpos), jsMul_num]
      · intro hneg
        rw [hrp, h1, if_neg (by rw [jsGt_num]; simpa using hneg)]
    · intro hcp
      have h1 : (rowMetrics a).currentValue = JSNum.num 0 := by
        rw [hcv, hs, hcp, jsOrZero_num]
        show jsMul (JSNum.num s) (JSNum.num 0) = _
        rw [jsMul_num, mul_zero]
      have h2 : (rowMetrics a).targetValue = JSNum.num (s * t) := by
        rw [htv, hs, htg, jsOrZero_num, jsOrZero_num, jsMul_num]
      exact ⟨h1, h2⟩
  · refine ⟨hct', htt', ?_, ?_⟩
    · show jsSub (targetTotal exampleRows) (currentTotal exampleRows) = _
      rw [hct', htt', jsSub_num]
      norm_num
    · show (if jsGt (currentTotal exampleRows) (JSNum.num 0) then _ else _) = _
      rw [hct', htt', if_pos (by rw [jsGt_num]; norm_num), jsSub_num,
        jsDiv_num _ _ (by norm_num), jsMul_num]
      norm_num

/-- Witness for C8's general part at the first example row. -/
theorem c8_derived_metrics_witness :
    (rowMetrics (exampleRows.get ⟨0, by decide⟩)).currentValue = JSNum.num (10 * 100) ∧
    (rowMetrics (exampleRows.get ⟨0, by decide⟩)).returnPct =
      some (JSNum.num ((10 * 120 - 10 * 100) / (10 * 100) * 100)) :=
  ⟨((c8_derived_metrics.1 (exampleRows.get ⟨0, by decide⟩) 10 100 120 rfl rfl).1 rfl).1,
   ((c8_derived_metrics.1 (exampleRows.get ⟨0, by decide⟩) 10 100 120 rfl rfl).1 rfl).2.2.2.1
     (by norm_num)⟩

/-! ## Claim C9 -/

/-- C9 (code-level evaluation): the source comments require that negative
values are not allowed in `shares`/`targetPrice`, but `updateShares` and
`updateTarget` store `parseFloat` output unclamped: the input string
`"-5"` stores the negative number `-5` in both fields. -/
theorem c9_negative_value_stored :
    updateSharesFn 0 "-5" [blankAsset 0] =
      [{ blankAsset 0 with shares := JSNum.num (-5) }] ∧
    updateTargetFn 0 "-5" [blankAsset 0] =
      [{ blankAsset 0 with targetPrice := JSNum.num (-5) }] ∧
    ((-5 : ℚ) < 0) := by
  have hp : jsParsedOrZero "-5" = JSNum.num (((-5 : ℤ) : ℚ) / ((1 : ℕ) : ℚ)) := rfl
  have hv : (((-5 : ℤ) : ℚ) / ((1 : ℕ) : ℚ)) = -5 := by norm_num
  refine ⟨?_, ?_, by norm_num⟩
  · have h : updateSharesFn 0 "-5" [blankAsset 0] =
        [{ blankAsset 0 with shares := jsParsedOrZero "-5" }] := rfl
    rw [h, hp, hv]
  · have h : updateTargetFn 0 "-5" [blankAsset 0] =
        [{ blankAsset 0 with targetPrice := jsParsedOrZero "-5" }] := rfl
    rw [h, hp, hv]

/-! ## Claim C10 -/

/-- C10: `removeRow` never fails: on a single-row list it resets the row
to blank defaults keeping the existing row's id whatever id was supplied,
and on a longer list with no matching id it returns the list unchanged. -/
theorem c10_removeRow_total :
    (∀ (a : Asset) (i : ℕ), removeRowFn i [a] = [blankAsset a.id]) ∧
    (∀ (l : List Asset) (i : ℕ), 2 ≤ l.length → (∀ a ∈ l, a.id ≠ i) →
       removeRowFn i l = l) := by
  constructor
  · intro a i
    rfl
  · intro l i hlen hid
    cases l with
    | nil => exact absurd hlen (by simp)
    | cons a tl =>
      cases tl with
      | nil => exact absurd hlen (by simp)
      | cons b tl2 =>
        show (a :: b :: tl2).filter (fun x => x.id != i) = _
        exact List.filter_eq_self.mpr (fun x hx => by simpa using hid x hx)

/-- Witness for C10: a non-matching id on a singleton still resets the
row (keeping its id), and a non-matching id on two rows changes nothing. -/
theorem c10_removeRow_total_witness :
    removeRowFn 5 [blankAsset 3] = [blankAsset 3] ∧
    removeRowFn 99 exampleRows = exampleRows :=
  ⟨c10_removeRow_total.1 (blankAsset 3) 5,
   c10_removeRow_total.2 exampleRows 99 (by decide) (by decide)⟩

/-! ## Claim C6 -/

/-- C6: `updateTicker(id, value)` maps the row list pointwise: the rows
whose id matches get the new ticker with `currentPrice` reset to `null`,
`loading` to `false` and `error` to `null` — leaving id, shares and
targetPrice untouched — and every other row is returned unchanged. -/
theorem c6_updateTicker_frame
    (l : List Asset) (i : ℕ) (t : String)
    (hmem : ∃ a ∈ l, a.id = i) (j : ℕ) (hj : j < l.length) :
    ((l.get ⟨j, hj⟩).id = i →
       (updateTickerFn i t l).get? j =
         some { l.get ⟨j, hj⟩ with ticker := t, currentPrice := none,
                                   loading := false, error := none }) ∧
    ((l.get ⟨j, hj⟩).id ≠ i →
       (updateTickerFn i t l).get? j = some (l.get ⟨j, hj⟩)) := by
  constructor
  · intro hid
    unfold updateTickerFn
    rw [List.get?_map, List.get?_eq_get hj]
    dsimp only [Option.map]
    rw [if_pos hid]
  · intro hid
    unfold updateTickerFn
    rw [List.get?_map, List.get?_eq_get hj]
    dsimp only [Option.map]
    rw [if_neg hid]

/-! ## Pointwise facts about the view-model operations -/

theorem applyOne_id (rs : List FetchResult) (a : Asset) : (applyOne rs a).id = a.id := by
  unfold applyOne
  cases rs.find? (fun x => x.id == a.id) with
  | none => rfl
  | some r =>
      dsimp only
      split <;> rfl

theorem applyOne_ticker (rs : List FetchResult) (a : Asset) :
    (applyOne rs a).ticker = a.ticker := by
  unfold applyOne
  cases rs.find? (fun x => x.id == a.id) with
  | none => rfl
  | some r =>
      dsimp only
      split <;> rfl

theorem applyOne_price (rs : List FetchResult) (a : Asset) :
    (applyOne rs a).currentPrice = a.currentPrice ∨
    (∃ r, rs.find? (fun x => x.id == a.id) = some r ∧ a.ticker ≠ "" ∧
       (applyOne rs a).currentPrice = r.price) := by
  unfold applyOne
  cases hf : rs.find? (fun x => x.id == a.id) with
  | none => left; rfl
  | some r =>
      by_cases ht : a.ticker = ""
      · left
        dsimp only
        rw [if_pos ht]
      · right
        refine ⟨r, rfl, ht, ?_⟩
        dsimp only
        rw [if_neg ht]

theorem markOne_cases (a : Asset) :
    (a.ticker = "" ∧ markOne a = a) ∨
    (a.ticker ≠ "" ∧ (markOne a).currentPrice = none) := by
  unfold markOne
  by_cases h : a.ticker = ""
  · left; exact ⟨h, if_pos h⟩
  · right; refine ⟨h, ?_⟩; rw [if_neg h]

theorem mem_updateTickerFn (i : ℕ) (t : String) (l : List Asset) (b : Asset)
    (h : b ∈ updateTickerFn i t l) :
    (∃ a ∈ l, a.id = i ∧
       b = { a with ticker := t, currentPrice := none, loading := false, error := none }) ∨
    (b ∈ l ∧ b.id ≠ i) := by
  unfold updateTickerFn at h
  rw [List.mem_map] at h
  obtain ⟨a, ha, rfl⟩ := h
  by_cases hid : a.id = i
  · left; exact ⟨a, ha, hid, by rw [if_pos hid]⟩
  · right; rw [if_neg hid]; exact ⟨ha, hid⟩

theorem mem_updateSharesFn (i : ℕ) (v : String) (l : List Asset) (b : Asset)
    (h : b ∈ updateSharesFn i v l) :
    ∃ a ∈ l, b.id = a.id ∧ b.ticker = a.ticker ∧ b.currentPrice = a.currentPrice := by
  unfold updateSharesFn at h
  rw [List.mem_map] at h
  obtain ⟨a, ha, rfl⟩ := h
  refine ⟨a, ha, ?_⟩
  split <;> exact ⟨rfl, rfl, rfl⟩

theorem mem_updateTargetFn (i : ℕ) (v : String) (l : List Asset) (b : Asset)
    (h : b ∈ updateTargetFn i v l) :
    ∃ a ∈ l, b.id = a.id ∧ b.ticker = a.ticker ∧ b.currentPrice = a.currentPrice := by
  unfold updateTargetFn at h
  rw [List.mem_map] at h
  obtain ⟨a, ha, rfl⟩ := h
  refine ⟨a, ha, ?_⟩
  split <;> exact ⟨rfl, rfl, rfl⟩

theorem mem_removeRowFn (i : ℕ) (l : List Asset) (b : Asset)
    (h : b ∈ removeRowFn i l) :
    b ∈ l ∨ ∃ a, l = [a] ∧ b = blankAsset a.id := by
  cases l with
  | nil => cases h
  | cons a tl =>
      cases tl with
      | nil =>
          right
          have he : removeRowFn i [a] = [blankAsset a.id] := rfl
          rw [he] at h
          exact ⟨a, rfl, by simpa using h⟩
      | cons c tl2 =>
          left
          have he : removeRowFn i (a :: c :: tl2) =
              (a :: c :: tl2).filter (fun x => x.id != i) := rfl
          rw [he] at h
          exact List.mem_of_mem_filter h

/-! ## Map-level id preservation -/

theorem ids_map_of_id_preserving {f : Asset → Asset}
    (hf : ∀ a, (f a).id = a.id) (l : List Asset) :
    (l.map f).map Asset.id = l.map Asset.id := by
  rw [List.map_map]
  exact List.map_congr_left (fun a _ => hf a)

theorem ids_updateTickerFn (i : ℕ) (t : String) (l : List Asset) :
    (updateTickerFn i t l).map Asset.id = l.map Asset.id :=
  ids_map_of_id_preserving (fun a => by by_cases h : a.id = i <;> simp [h]) l

theorem ids_updateSharesFn (i : ℕ) (v : String) (l : List Asset) :
    (updateSharesFn i v l).map Asset.id = l.map Asset.id :=
  ids_map_of_id_preserving (fun a => by by_cases h : a.id = i <;> simp [h]) l

theorem ids_updateTargetFn (i : ℕ) (v : String) (l : List Asset) :
    (updateTargetFn i v l).map Asset.id = l.map Asset.id :=
  ids_map_of_id_preserving (fun a => by by_cases h : a.id = i <;> simp [h]) l

theorem ids_markLoading (l : List Asset) :
    (markLoading l).map Asset.id = l.map Asset.id :=
  ids_map_of_id_preserving markOne_id l

theorem ids_applyResults (rs : List FetchResult) (l : List Asset) :
    (applyResults rs l).map Asset.id = l.map Asset.id :=
  ids_map_of_id_preserving (applyOne_id rs) l

theorem ids_addRowFn (n : ℕ) (l : List Asset) :
    (addRowFn n l).map Asset.id = l.map Asset.id ++ [n] := by
  simp [addRowFn, blankAsset]

theorem removeRowFn_of_length_ne_one (i : ℕ) (l : List Asset) (h : l.length ≠ 1) :
    removeRowFn i l = l.filter (fun a => a.id != i) := by
  cases l with
  | nil => rfl
  | cons a tl =>
      cases tl with
      | nil => exact absurd rfl h
      | cons c tl2 => rfl

/-- Transfer of the purely id-based invariant conjuncts along an
equality of id lists. -/
theorem idsEq_transfer {L L' : List Asset}
    (h : L'.map Asset.id = L.map Asset.id) (n : ℕ) :
    ((L' ≠ []) ↔ (L ≠ [])) ∧
    ((L'.map Asset.id).Nodup ↔ (L.map Asset.id).Nodup) ∧
    ((∀ a ∈ L', a.id < n) ↔ (∀ a ∈ L, a.id < n)) := by
  refine ⟨?_, by rw [h], ?_⟩
  · have : (L' = []) ↔ (L = []) := by
      rw [← List.map_eq_nil_iff (f := Asset.id), h, List.map_eq_nil_iff]
    exact not_congr this
  · rw [← List.forall_mem_map (P := fun x => x < n), h,
      List.forall_mem_map (P := fun x => x < n)]

theorem id_inj_of_nodup {l : List Asset} (h : (l.map Asset.id).Nodup)
    {a b : Asset} (ha : a ∈ l) (hb : b ∈ l) (hid : a.id = b.id) : a = b :=
  List.inj_on_of_nodup_map h ha hb hid

/-! ## Invariant preservation -/

theorem structInv_init : StructInv initState := by
  refine ⟨by simp [initState], ?_, by simp [initState, blankAsset], ?_, ?_⟩
  · intro a ha
    rw [show a = blankAsset 0 by simpa [initState] using ha]
    exact Nat.zero_lt_one
  · intro a ha
    rw [show a = blankAsset 0 by simpa [initState] using ha]
    intro _
    rfl
  · intro round hr
    simp [initState] at hr

theorem step_structInv {res : String → Option JSNum} {g : Bool} {s s' : AppState}
    (h : Step res g s s') (hs : StructInv s) : StructInv s' := by
  obtain ⟨h1, h2, h3, h4, h5⟩ := hs
  cases h with
  | editTicker i t hg =>
      obtain ⟨e1, e2, e3⟩ := idsEq_transfer (ids_updateTickerFn i t s.assets) s.nextId
      refine ⟨e1.mpr h1, e3.mpr h2, e2.mpr h3, ?_, h5⟩
      intro b hb hbt
      rcases mem_updateTickerFn i t s.assets b hb with ⟨a, _, _, rfl⟩ | ⟨hbl, _⟩
      · rfl
      · exact h4 b hbl hbt
  | editShares i v =>
      obtain ⟨e1, e2, e3⟩ := idsEq_transfer (ids_updateSharesFn i v s.assets) s.nextId
      refine ⟨e1.mpr h1, e3.mpr h2, e2.mpr h3, ?_, h5⟩
      intro b hb hbt
      obtain ⟨a, ha, _, ht, hp⟩ := mem_updateSharesFn i v s.assets b hb
      rw [hp]
      exact h4 a ha (ht ▸ hbt)
  | editTarget i v =>
      obtain ⟨e1, e2, e3⟩ := idsEq_transfer (ids_updateTargetFn i v s.assets) s.nextId
      refine ⟨e1.mpr h1, e3.mpr h2, e2.mpr h3, ?_, h5⟩
      intro b hb hbt
      obtain ⟨a, ha, _, ht, hp⟩ := mem_updateTargetFn i v s.assets b hb
      rw [hp]
      exact h4 a ha (ht ▸ hbt)
  | addRow =>
      refine ⟨by simp [addRowFn], ?_, ?_, ?_, ?_⟩
      · intro b hb
        rcases List.mem_append.mp hb with hb | hb
        · exact Nat.lt_succ_of_lt (h2 b hb)
        · rw [show b = blankAsset s.nextId by simpa using hb]
          exact Nat.lt_succ_self _
      · rw [ids_addRowFn]
        rw [List.nodup_append]
        refine ⟨h3, List.nodup_singleton _, ?_⟩
        intro x hx hx1
        rw [List.mem_singleton.mp hx1] at hx
        rw [List.mem_map] at hx
        obtain ⟨a, ha, hid⟩ := hx
        exact absurd (hid ▸ h2 a ha) (lt_irrefl _)
      · intro b hb hbt
        rcases List.mem_append.mp hb with hb | hb
        · exact h4 b hb hbt
        · rw [show b = blankAsset s.nextId by simpa using hb]
          rfl
      · intro round hr r hrr
        exact Nat.lt_succ_of_lt (h5 round hr r hrr)
  | removeRow i =>
      refine ⟨?_, ?_, ?_, ?_, h5⟩
      · -- the list stays non-empty
        rcases hl : s.assets with _ | ⟨a, tl⟩
        · exact absurd hl h1
        · rcases tl with _ | ⟨c, tl2⟩
          · simp [removeRowFn]
          · rw [show removeRowFn i (a :: c :: tl2) =
                (a :: c :: tl2).filter (fun x => x.id != i) from rfl]
            intro hfil
            have hall := List.filter_eq_nil_iff.mp hfil
            have hai : a.id = i := by simpa using hall a (by simp)
            have hci : c.id = i := by simpa using hall c (by simp)
            rw [hl] at h3
            simp only [List.map_cons, List.nodup_cons] at h3
            exact h3.1 (by simp [hai, hci.symm])
      · intro b hb
        rcases mem_removeRowFn i s.assets b hb with hbl | ⟨a, hla, rfl⟩
        · exact h2 b hbl
        · exact h2 a (by rw [hla]; simp)
      · by_cases hlen : s.assets.length = 1
        · rcases hl : s.assets with _ | ⟨a, tl⟩
          · exact absurd hl h1
          · rcases tl with _ | ⟨c, tl2⟩
            · simp [removeRowFn]
            · rw [hl] at hlen; simp at hlen
        · rw [removeRowFn_of_length_ne_one i s.assets hlen]
          exact List.Nodup.sublist ((List.filter_sublist s.assets).map Asset.id) h3
      · intro b hb hbt
        rcases mem_removeRowFn i s.assets b hb with hbl | ⟨a, _, rfl⟩
        · exact h4 b hbl hbt
        · rfl
  | startFetch =>
      obtain ⟨e1, e2, e3⟩ := idsEq_transfer (ids_markLoading s.assets) s.nextId
      refine ⟨e1.mpr h1, e3.mpr h2, e2.mpr h3, ?_, ?_⟩
      · intro b hb hbt
        unfold markLoading at hb
        rw [List.mem_map] at hb
        obtain ⟨a, ha, rfl⟩ := hb
        rcases markOne_cases a with ⟨hat, heq⟩ | ⟨hat, hp⟩
        · rw [heq]
          exact h4 a ha (heq ▸ hbt)
        · exact hp
      · intro round hr r hrr
        rcases List.mem_append.mp hr with hr | hr
        · exact h5 round hr r hrr
        · rw [List.mem_singleton.mp hr] at hrr
          rw [List.mem_map] at hrr
          obtain ⟨a, ha, rfl⟩ := hrr
          rw [mkResult_id]
          exact h2 a ha
  | completeFetch k round hk =>
      obtain ⟨e1, e2, e3⟩ := idsEq_transfer (ids_applyResults round s.assets) s.nextId
      refine ⟨e1.mpr h1, e3.mpr h2, e2.mpr h3, ?_, ?_⟩
      · intro b hb hbt
        unfold applyResults at hb
        rw [List.mem_map] at hb
        obtain ⟨a, ha, rfl⟩ := hb
        have hat : a.ticker = "" := by rw [← applyOne_ticker round a]; exact hbt
        rcases applyOne_price round a with hp | ⟨r, _, hne, _⟩
        · rw [hp]
          exact h4 a ha hat
        · exact absurd hat hne
      · intro rd hrd r hrr
        exact h5 rd (List.mem_of_mem_eraseIdx hrd) r hrr

theorem reachable_structInv (res : String → Option JSNum) (g : Bool) (s : AppState)
    (h : Reachable res g s) : StructInv s := by
  induction h with
  | refl => exact structInv_init
  | tail _ hstep ih => exact step_structInv hstep ih

/-! ## Guarded price-consistency invariant -/

theorem step_priceConsistency {res : String → Option JSNum} {s s' : AppState}
    (h : Step res true s s') (hst : StructInv s)
    (hp : PriceConsistent res s) (hq : PendingConsistent res s) :
    PriceConsistent res s' ∧ PendingConsistent res s' := by
  obtain ⟨h1, h2, h3, h4, h5⟩ := hst
  cases h with
  | editTicker i t hg =>
      have hpe : s.pending = [] := hg rfl
      constructor
      · intro b hb p hbp
        rcases mem_updateTickerFn i t s.assets b hb with ⟨a, _, _, rfl⟩ | ⟨hbl, _⟩
        · cases hbp
        · exact hp b hbl p hbp
      · intro round hr
        rw [hpe] at hr
        cases hr
  | editShares i v =>
      constructor
      · intro b hb p hbp
        obtain ⟨a, ha, _, ht, hpr⟩ := mem_updateSharesFn i v s.assets b hb
        rw [ht]
        exact hp a ha p (hpr ▸ hbp)
      · intro round hr r hrr b hb hid hbt p hrp
        obtain ⟨a, ha, hi, ht, _⟩ := mem_updateSharesFn i v s.assets b hb
        rw [ht]
        exact hq round hr r hrr a ha (hi ▸ hid) (ht ▸ hbt) p hrp
  | editTarget i v =>
      constructor
      · intro b hb p hbp
        obtain ⟨a, ha, _, ht, hpr⟩ := mem_updateTargetFn i v s.assets b hb
        rw [ht]
        exact hp a ha p (hpr ▸ hbp)
      · intro round hr r hrr b hb hid hbt p hrp
        obtain ⟨a, ha, hi, ht, _⟩ := mem_updateTargetFn i v s.assets b hb
        rw [ht]
        exact hq round hr r hrr a ha (hi ▸ hid) (ht ▸ hbt) p hrp
  | addRow =>
      constructor
      · intro b hb p hbp
        rcases List.mem_append.mp hb with hb | hb
        · exact hp b hb p hbp
        · rw [show b = blankAsset s.nextId by simpa using hb] at hbp
          cases hbp
      · intro round hr r hrr b hb hid hbt p hrp
        rcases List.mem_append.mp hb with hb | hb
        · exact hq round hr r hrr b hb hid hbt p hrp
        · rw [show b = blankAsset s.nextId by simpa using hb] at hid
          exact absurd (hid ▸ h5 round hr r hrr) (lt_irrefl _)
  | removeRow i =>
      constructor
      · intro b hb p hbp
        rcases mem_removeRowFn i s.assets b hb with hbl | ⟨a, _, rfl⟩
        · exact hp b hbl p hbp
        · cases hbp
      · intro round hr r hrr b hb hid hbt p hrp
        rcases mem_removeRowFn i s.assets b hb with hbl | ⟨a, _, rfl⟩
        · exact hq round hr r hrr b hbl hid hbt p hrp
        · exact absurd rfl hbt
  | startFetch =>
      constructor
      · intro b hb p hbp
        unfold markLoading at hb
        rw [List.mem_map] at hb
        obtain ⟨a, ha, rfl⟩ := hb
        rcases markOne_cases a with ⟨_, heq⟩ | ⟨_, hnone⟩
        · rw [heq] at hbp ⊢
          exact hp a ha p hbp
        · rw [hnone] at hbp
          cases hbp
      · intro round hr r hrr b hb hid hbt p hrp
        unfold markLoading at hb
        rw [List.mem_map] at hb
        obtain ⟨a, ha, rfl⟩ := hb
        have hidm : a.id = r.id := by rw [← markOne_id a]; exact hid
        have htm : a.ticker ≠ "" := by rw [← markOne_ticker a]; exact hbt
        rw [markOne_ticker]
        rcases List.mem_append.mp hr with hr | hr
        · exact hq round hr r hrr a ha hidm htm p hrp
        · rw [List.mem_singleton.mp hr] at hrr
          rw [List.mem_map] at hrr
          obtain ⟨c, hc, rfl⟩ := hrr
          have hac : a = c := id_inj_of_nodup h3 ha hc (by rw [hidm, mkResult_id])
          subst hac
          rw [mkResult_of_ticker res a htm] at hrp
          dsimp only at hrp
          rw [← hrp]
  | completeFetch k round hk =>
      constructor
      · intro b hb p hbp
        unfold applyResults at hb
        rw [List.mem_map] at hb
        obtain ⟨a, ha, rfl⟩ := hb
        rw [applyOne_ticker]
        rcases applyOne_price round a with hpr | ⟨r, hf, hat, hpr⟩
        · exact hp a ha p (hpr ▸ hbp)
        · have hrmem : r ∈ round := List.mem_of_find?_eq_some hf
          have hrid : r.id = a.id := by
            have := List.find?_some hf
            simpa using this
          exact hq round (List.get?_mem hk) r hrmem a ha hrid.symm hat p (hpr ▸ hbp)
      · intro rd hrd r hrr b hb hid hbt p hrp
        unfold applyResults at hb
        rw [List.mem_map] at hb
        obtain ⟨a, ha, rfl⟩ := hb
        rw [applyOne_ticker]
        exact hq rd (List.mem_of_mem_eraseIdx hrd) r hrr a ha
          (by rw [← applyOne_id round a]; exact hid)
          (by rw [← applyOne_ticker round a]; exact hbt) p hrp

theorem reachable_guarded_inv (res : String → Option JSNum) (s : AppState)
    (h : Reachable res true s) :
    StructInv s ∧ PriceConsistent res s ∧ PendingConsistent res s := by
  induction h with
  | refl =>
      refine ⟨structInv_init, ?_, ?_⟩
      · intro a ha p hp
        rw [show a = blankAsset 0 by simpa [initState] using ha] at hp
        cases hp
      · intro round hr
        simp [initState] at hr
  | tail _ hstep ih =>
      exact ⟨step_structInv hstep ih.1,
        (step_priceConsistency hstep ih.1 ih.2.1 ih.2.2).1,
        (step_priceConsistency hstep ih.1 ih.2.1 ih.2.2).2⟩

/-! ## Claim C7 -/

/-- C7: in every reachable state the row list is non-empty; `removeRow`
on a singleton resets the row to blank defaults keeping its id; and each
operation preserves the ids of the surviving rows (`addRow` appends one
fresh id, `removeRow` on a longer list keeps exactly the non-matching
ids, the edit and fetch operations keep the id list unchanged). -/
theorem c7_nonempty_and_id_stability :
    (∀ (resolver : String → Option JSNum) (g : Bool) (s : AppState),
       Reachable resolver g s → s.assets ≠ []) ∧
    (∀ (a : Asset) (i : ℕ), removeRowFn i [a] = [blankAsset a.id]) ∧
    (∀ (l : List Asset) (i : ℕ) (t : String),
       (updateTickerFn i t l).map Asset.id = l.map Asset.id) ∧
    (∀ (l : List Asset) (i : ℕ) (v : String),
       (updateSharesFn i v l).map Asset.id = l.map Asset.id) ∧
    (∀ (l : List Asset) (i : ℕ) (v : String),
       (updateTargetFn i v l).map Asset.id = l.map Asset.id) ∧
    (∀ (l : List Asset) (n : ℕ),
       (addRowFn n l).map Asset.id = l.map Asset.id ++ [n]) ∧
    (∀ l : List Asset, (markLoading l).map Asset.id = l.map Asset.id) ∧
    (∀ (rs : List FetchResult) (l : List Asset),
       (applyResults rs l).map Asset.id = l.map Asset.id) ∧
    (∀ (l : List Asset) (i : ℕ), l.length ≠ 1 →
       (removeRowFn i l).map Asset.id =
         (l.filter (fun a => a.id != i)).map Asset.id) :=
  ⟨fun resolver g s h => (reachable_structInv resolver g s h).1,
   fun _ _ => rfl,
   fun l i t => ids_updateTickerFn i t l,
   fun l i v => ids_updateSharesFn i v l,
   fun l i v => ids_updateTargetFn i v l,
   fun l n => ids_addRowFn n l,
   ids_markLoading,
   ids_applyResults,
   fun l i h => by rw [removeRowFn_of_length_ne_one i l h]⟩

/-- Witness for C7: the initial state is non-empty, and removing a
non-matching id from the two example rows keeps both ids. -/
theorem c7_nonempty_and_id_stability_witness :
    initState.assets ≠ [] ∧
    (removeRowFn 5 exampleRows).map Asset.id =
      (exampleRows.filter (fun a => a.id != 5)).map Asset.id :=
  ⟨c7_nonempty_and_id_stability.1 resolver0 false initState Relation.ReflTransGen.refl,
   c7_nonempty_and_id_stability.2.2.2.2.2.2.2.2 exampleRows 5 (by decide)⟩

/-! ## Claim C5 -/

/-- C5 counterexample: with a round in flight (started while the row's
ticker was `"AAPL"`), editing the ticker to `"MSFT"` and then letting the
round complete reaches a state whose only row shows `currentPrice = 100`
— the price resolved for `"AAPL"` — against ticker `"MSFT"`, whose own
resolver price is 50.  So a fetched price IS displayed against a changed
ticker in a reachable execution. -/
theorem c5_stale_price_counterexample :
    Reachable resolver0 false cexS4 ∧
    cexS4.assets =
      [{ id := 0, ticker := "MSFT", shares := JSNum.num 0,
         currentPrice := some (JSNum.num 100), targetPrice := JSNum.num 0,
         loading := false, error := none }] ∧
    resolver0 "MSFT" = some (JSNum.num 50) ∧
    resolver0 "AAPL" = some (JSNum.num 100) := by
  refine ⟨?_, by decide, by decide, by decide⟩
  have h1 : Step resolver0 false initState cexS1 :=
    Step.editTicker initState 0 "AAPL" (fun h => absurd h (by decide))
  have h2 : Step resolver0 false cexS1 cexS2 := Step.startFetch cexS1
  have h3 : Step resolver0 false cexS2 cexS3 :=
    Step.editTicker cexS2 0 "MSFT" (fun h => absurd h (by decide))
  have h4 : Step resolver0 false cexS3 cexS4 :=
    Step.completeFetch cexS3 0 (cexS1.assets.map (mkResult resolver0)) rfl
  exact Relation.ReflTransGen.tail
    (Relation.ReflTransGen.tail
      (Relation.ReflTransGen.tail
        (Relation.ReflTransGen.tail Relation.ReflTransGen.refl h1) h2) h3) h4

/-- C5 (amended): `updateTicker` synchronously clears the edited row's
displayed price; and in every execution in which `updateTicker` is only
invoked while no fetch round is in flight, every displayed `currentPrice`
is the resolver's price for that row's current ticker, so no state shows
a price resolved for a different ticker.  (The unrestricted claim fails:
a round in flight across a ticker edit writes the old ticker's price, as
the counterexample shows.) -/
theorem c5_no_stale_price_guarded :
    (∀ (l : List Asset) (i : ℕ) (t : String) (b : Asset),
       b ∈ updateTickerFn i t l → b.id = i → b.currentPrice = none) ∧
    (∀ (resolver : String → Option JSNum) (s : AppState),
       Reachable resolver true s →
       ∀ a ∈ s.assets, ∀ p, a.currentPrice = some p → resolver a.ticker = some p) := by
  constructor
  · intro l i t b hb hid
    rcases mem_updateTickerFn i t l b hb with ⟨a, _, _, rfl⟩ | ⟨_, hne⟩
    · rfl
    · exact absurd hid hne
  · intro resolver s hreach
    exact (reachable_guarded_inv resolver s hreach).2.1

/-- Witness for C5's amended statement: a concrete guarded trace (edit
while idle, fetch, complete) ends with the row showing 100 for `"AAPL"`,
and the theorem applied there yields `resolver0 "AAPL" = some 100`; the
synchronous-clear part is applied to a concrete one-row list. -/
theorem c5_no_stale_price_guarded_witness :
    ({ blankAsset 0 with ticker := "X" } : Asset).currentPrice = none ∧
    resolver0 "AAPL" = some (JSNum.num 100) := by
  constructor
  · exact c5_no_stale_price_guarded.1
      [{ blankAsset 0 with currentPrice := some (JSNum.num 7) }] 0 "X"
      { blankAsset 0 with ticker := "X" } (by decide) (by decide)
  · have h1 : Step resolver0 true initState witS1 :=
      Step.editTicker initState 0 "AAPL" (fun _ => rfl)
    have h2 : Step resolver0 true witS1 witS2 := Step.startFetch witS1
    have h3 : Step resolver0 true witS2 witS3 :=
      Step.completeFetch witS2 0 (witS1.assets.map (mkResult resolver0)) rfl
    have hr : Reachable resolver0 true witS3 :=
      Relation.ReflTransGen.tail
        (Relation.ReflTransGen.tail
          (Relation.ReflTransGen.tail Relation.ReflTransGen.refl h1) h2) h3
    exact c5_no_stale_price_guarded.2 resolver0 witS3 hr
      { id := 0, ticker := "AAPL", shares := JSNum.num 0,
        currentPrice := some (JSNum.num 100), targetPrice := JSNum.num 0,
        loading := false, error := none }
      (by decide) (JSNum.num 100) (by decide)

/-- Witness for C6 on a concrete two-row list: the matching row is reset,
the other row is untouched. -/
theorem c6_updateTicker_frame_witness :
    (updateTickerFn 1 "MSFT" exampleRows).get? 0 =
      some { exampleRows.get ⟨0, by decide⟩ with
             ticker := "MSFT", currentPrice := none, loading := false, error := none } ∧
    (updateTickerFn 1 "MSFT" exampleRows).get? 1 =
      some (exampleRows.get ⟨1, by decide⟩) :=
  ⟨(c6_updateTicker_frame exampleRows 1 "MSFT"
      ⟨exampleRows.get ⟨0, by decide⟩, by decide, by decide⟩ 0 (by decide)).1 (by decide),
   (c6_updateTicker_frame exampleRows 1 "MSFT"
      ⟨exampleRows.get ⟨0, by decide⟩, by decide, by decide⟩ 1 (by decide)).2 (by decide)⟩

end PortfolioProjection
